import Mathlib

/-!
Verification of the client-side scene registry, physics step and pointer
interpreter of the pushups application (src/Client/app.js).

Three models are developed, each a shallow embedding of the corresponding
part of the source:

* a registry model (`createSphere` / `removeSphere` and the running
  `gridIndex` triangle-slot assignment), over `ℚ`/`ℕ`, fully computable;
* a gesture model of the pointer handlers (`onTouchStart`, `onTouchMove`,
  `onTouchEnd`, `onMouseDown`, `onMouseMove`, `onMouseUp`, `onClick`) over
  `ℚ`, with an explicit type `JSQ` for the IEEE non-finite values the
  velocity computation can produce;
* a physics model of `updatePhysics` over `ℝ` (the Euclidean distance and
  vector normalisation need square roots).
-/

namespace Pushups

/-! ## Registry model (createSphere / removeSphere, src/Client/app.js) -/

/-- The row-search loop of `createSphere`:
`while (rowStartIndex + row + 1 <= gridIndex) { rowStartIndex += row + 1; row++; }`.
The first argument is `gridIndex`, then the fuel bounding the iteration
count, then the current `row` and `rowStartIndex`. -/
def findRowAux (g : ℕ) : ℕ → ℕ → ℕ → ℕ × ℕ
  | 0, row, start => (row, start)
  | fuel + 1, row, start =>
    if start + row + 1 ≤ g then findRowAux g fuel (row + 1) (start + row + 1)
    else (row, start)

/-- Row and row-start index assigned to grid slot `g`.  Fuel `g + 1` is
enough: the loop body strictly increases `rowStartIndex`, which stays `≤ g`. -/
def findRow (g : ℕ) : ℕ × ℕ := findRowAux g (g + 1) 0 0

/-- Triangular numbers: `T r` is `0 + 1 + ⋯ + r`, the index of the first
slot of row `r` of the tree layout. -/
def T : ℕ → ℕ
  | 0 => 0
  | r + 1 => T r + r + 1

/-- A sphere entity as kept by the registry: identity, assigned grid slot
(`userData.gridRow` / `userData.gridCol`) and the triangle position computed
from it (spacing 5, row `r` descending from the apex). -/
structure RegSphere where
  id : ℕ
  gridRow : ℕ
  gridCol : ℕ
  posX : ℚ
  posY : ℚ
  posZ : ℚ
  deriving DecidableEq, Repr

/-- Registry state: the live `spheres` array and the running `gridIndex`. -/
structure RegState where
  spheres : List RegSphere
  gridIndex : ℕ
  deriving DecidableEq, Repr

/-- Model of `createSphere(data)`, registry part: compute the triangle slot from the
current `gridIndex`, position the sphere, push it and increment `gridIndex`.
(Geometry, texture and material creation are rendering-engine calls with no
registry effect and are not modelled.) -/
def createSphere (st : RegState) (dataId : ℕ) : RegState :=
  let rc := findRow st.gridIndex
  let row := rc.1
  let col := st.gridIndex - rc.2
  let spheresInRow := row + 1
  let offsetX : ℚ := (spheresInRow - 1) * 5 / 2
  let sp : RegSphere :=
    { id := dataId, gridRow := row, gridCol := col
      posX := col * 5 - offsetX
      posY := -(row * 5 : ℚ)
      posZ := 0 }
  { spheres := st.spheres ++ [sp], gridIndex := st.gridIndex + 1 }

/-- Model of `removeSphere(sphereId)`: find the index by identity and splice it out;
no-op when absent.  `gridIndex` is not touched. -/
def removeSphere (st : RegState) (sphereId : ℕ) : RegState :=
  match st.spheres.findIdx? (fun s => s.id == sphereId) with
  | none => st
  | some k => { st with spheres := st.spheres.eraseIdx k }

/-- An administrative operation on the registry. -/
inductive RegOp where
  | add (dataId : ℕ)
  | remove (sphereId : ℕ)
  deriving DecidableEq, Repr

/-- One registry operation. -/
def regStep (st : RegState) : RegOp → RegState
  | .add d => createSphere st d
  | .remove i => removeSphere st i

/-- A sequence of registry operations, applied left to right. -/
def regRun (st : RegState) : List RegOp → RegState
  | [] => st
  | op :: ops => regRun (regStep st op) ops

/-- Number of `add` operations in a sequence. -/
def countAdds : List RegOp → ℕ
  | [] => 0
  | .add _ :: ops => countAdds ops + 1
  | .remove _ :: ops => countAdds ops

/-- Linear slot index of a sphere's stored grid slot: slot `(r, c)` is the
`c`-th slot of row `r`, i.e. slot number `T r + c`. -/
def slotOf (sp : RegSphere) : ℕ := T sp.gridRow + sp.gridCol

/-- Every sphere of the registry sits in a slot strictly below the running
`gridIndex` (all assigned slots precede the next fresh one). -/
def RegFresh (st : RegState) : Prop :=
  ∀ sp ∈ st.spheres, slotOf sp < st.gridIndex

instance : DecidablePred RegFresh := fun st =>
  decidable_of_iff (∀ sp ∈ st.spheres, slotOf sp < st.gridIndex) Iff.rfl

theorem findRowAux_spec (g : ℕ) :
    ∀ fuel row start, start = T row → start ≤ g → g + 1 ≤ fuel + start →
      (findRowAux g fuel row start).2 = T (findRowAux g fuel row start).1 ∧
      (findRowAux g fuel row start).2 ≤ g ∧
      g < (findRowAux g fuel row start).2 + (findRowAux g fuel row start).1 + 1 := by
  intro fuel
  induction fuel with
  | zero => intro row start _ h1 h2; omega
  | succ fuel ih =>
    intro row start h0 h1 h2
    rw [findRowAux]
    by_cases h : start + row + 1 ≤ g
    · rw [if_pos h]
      exact ih (row + 1) (start + row + 1) (by simp [T, h0]) (by omega) (by omega)
    · rw [if_neg h]
      exact ⟨h0, h1, by omega⟩

theorem findRow_spec (g : ℕ) :
    (findRow g).2 = T (findRow g).1 ∧ (findRow g).2 ≤ g ∧
      g < (findRow g).2 + (findRow g).1 + 1 :=
  findRowAux_spec g (g + 1) 0 0 rfl (Nat.zero_le g) (by omega)

theorem removeSphere_gridIndex (st : RegState) (i : ℕ) :
    (removeSphere st i).gridIndex = st.gridIndex := by
  rw [removeSphere]
  rcases hfind : st.spheres.findIdx? (fun s => s.id == i) with _ | k <;>
    rw [hfind]

theorem removeSphere_subset (st : RegState) (i : ℕ) :
    ∀ sp ∈ (removeSphere st i).spheres, sp ∈ st.spheres := by
  intro sp hsp
  rw [removeSphere] at hsp
  rcases hfind : st.spheres.findIdx? (fun s => s.id == i) with _ | k
  · rw [hfind] at hsp
    exact hsp
  · rw [hfind] at hsp
    exact List.mem_of_mem_eraseIdx hsp

/-- The sphere appended by `createSphere` is placed in linear slot
`st.gridIndex` (the running index). -/
theorem createSphere_slot (st : RegState) (d : ℕ) :
    (createSphere st d).spheres.getLast?.map slotOf = some st.gridIndex := by
  obtain ⟨h1, h2, _⟩ := findRow_spec st.gridIndex
  simp only [createSphere, List.getLast?_concat, Option.map_some']
  simp only [slotOf, Option.some.injEq]
  omega

theorem regStep_fresh (st : RegState) (op : RegOp) (h : RegFresh st) :
    RegFresh (regStep st op) := by
  cases op with
  | add d =>
    intro sp hsp
    show slotOf sp < st.gridIndex + 1
    simp only [regStep, createSphere, List.mem_append, List.mem_singleton] at hsp
    rcases hsp with hsp | rfl
    · exact Nat.lt_succ_of_lt (h sp hsp)
    · obtain ⟨h1, h2, _⟩ := findRow_spec st.gridIndex
      simp only [slotOf]
      rw [← h1]
      omega
  | remove i =>
    intro sp hsp
    show slotOf sp < (removeSphere st i).gridIndex
    rw [removeSphere_gridIndex]
    exact h sp (removeSphere_subset st i sp hsp)

theorem regRun_fresh (st : RegState) (ops : List RegOp) (h : RegFresh st) :
    RegFresh (regRun st ops) := by
  induction ops generalizing st with
  | nil => exact h
  | cons op ops ih => exact ih (regStep st op) (regStep_fresh st op h)

theorem regRun_gridIndex (st : RegState) (ops : List RegOp) :
    (regRun st ops).gridIndex = st.gridIndex + countAdds ops := by
  induction ops generalizing st with
  | nil => simp [regRun, countAdds]
  | cons op ops ih =>
    cases op with
    | add d =>
      simp only [regRun, countAdds, regStep]
      rw [ih]
      simp [createSphere]
      omega
    | remove i =>
      simp only [regRun, countAdds, regStep]
      rw [ih, removeSphere_gridIndex]

/-- C10: the running grid insertion index never decreases: over any
sequence of add/remove operations it equals its starting value plus the
number of adds; a removal keeps `gridIndex` and leaves every remaining
sphere's record (slot and position included) untouched; and a sphere added
at any point is assigned the next fresh slot `gridIndex`, which lies beyond
every slot ever assigned, so removals leave permanent gaps. -/
theorem gridIndex_monotone_remove_gaps (st : RegState) (ops : List RegOp)
    (d i : ℕ) :
    (regRun st ops).gridIndex = st.gridIndex + countAdds ops ∧
    (removeSphere st i).gridIndex = st.gridIndex ∧
    (∀ sp ∈ (removeSphere st i).spheres, sp ∈ st.spheres) ∧
    ((createSphere st d).spheres.getLast?.map slotOf = some st.gridIndex) ∧
    (RegFresh st → RegFresh (regRun st ops)) := by
  exact ⟨regRun_gridIndex st ops, removeSphere_gridIndex st i,
    removeSphere_subset st i, createSphere_slot st d, regRun_fresh st ops⟩

/-- Witness for `gridIndex_monotone_remove_gaps` at a concrete registry run
(add two spheres, remove the first, add another). -/
theorem gridIndex_monotone_remove_gaps_witness :
    RegFresh { spheres := [], gridIndex := 0 } ∧
    RegFresh (regRun { spheres := [], gridIndex := 0 }
      [RegOp.add 1, RegOp.add 2, RegOp.remove 1, RegOp.add 3]) :=
  ⟨by decide,
    (gridIndex_monotone_remove_gaps { spheres := [], gridIndex := 0 }
      [RegOp.add 1, RegOp.add 2, RegOp.remove 1, RegOp.add 3] 0 0).2.2.2.2
      (by decide)⟩

/-! ## Gesture model (pointer handlers, src/Client/app.js)

Client coordinates, timestamps and entity positions are modelled over `ℚ`.
The velocity computation of `onTouchMove` divides by an elapsed time that
can be zero, which in JavaScript produces `Infinity`/`-Infinity`/`NaN`, so
velocities are modelled by `JSQ`, rationals extended with the IEEE
non-finite values.  The raycaster hit-test and the screen-to-world
projection are rendering-engine services; their results (`hit`, `proj`)
are event data.  Camera pan/zoom state only feeds the rendering engine and
is not modelled; the pinch distance (a square root computed by the code)
is likewise taken as the event datum. -/

/-- A JavaScript number: a finite rational or a non-finite IEEE value. -/
inductive JSQ where
  | fin (q : ℚ)
  | posInf
  | negInf
  | nan
  deriving DecidableEq, Repr

/-- JS division of finite numbers: division by zero follows IEEE 754
(the dividend's sign decides `±Infinity`, `0 / 0` is `NaN`). -/
def jsDiv (a b : ℚ) : JSQ :=
  if b = 0 then
    if 0 < a then .posInf else if a < 0 then .negInf else .nan
  else .fin (a / b)

/-- JS multiplication of a number by a finite constant. -/
def jsMul (x : JSQ) (c : ℚ) : JSQ :=
  match x with
  | .fin q => .fin (q * c)
  | .posInf => if 0 < c then .posInf else if c < 0 then .negInf else .nan
  | .negInf => if 0 < c then .negInf else if c < 0 then .posInf else .nan
  | .nan => .nan

/-- JS negation. -/
def jsNeg : JSQ → JSQ
  | .fin q => .fin (-q)
  | .posInf => .negInf
  | .negInf => .posInf
  | .nan => .nan

/-- A sphere as seen by the pointer handlers: identity, position, velocity
and the `userData.isDragging` grabbed flag. -/
structure GSphere where
  id : ℕ
  posX : ℚ
  posY : ℚ
  posZ : ℚ
  velX : JSQ
  velY : JSQ
  velZ : JSQ
  isDragging : Bool
  deriving DecidableEq, Repr

/-- The global interaction state read and written by the handlers.
`selectedSphere` holds the index of the referenced sphere in the `spheres`
array (the source holds the object reference itself). -/
structure GState where
  spheres : List GSphere
  selectedSphere : Option ℕ
  isDragging : Bool
  touchStart : Option (ℚ × ℚ × ℚ)
  touchStartPosition : Option (ℚ × ℚ)
  lastPinchDistance : ℚ
  mouseDownPosition : Option (ℚ × ℚ)
  hasDraggedMouse : Bool
  isPanning : Bool
  deriving DecidableEq, Repr

/-- Set the grabbed flag of the sphere at index `i` (no-op when out of
range, which the source never hits since the reference is live). -/
def setFlag (l : List GSphere) (i : ℕ) (b : Bool) : List GSphere :=
  match l[i]? with
  | none => l
  | some sp => l.set i { sp with isDragging := b }

/-- Model of `onTouchStart`, two-finger branch: record the pinch distance and
return (camera untouched pending the first move). -/
def onTouchStartPinch (st : GState) (dist : ℚ) : GState :=
  { st with lastPinchDistance := dist }

/-- Model of `onTouchStart`, single-touch branch: store the touch-start position,
hit-test, and on a hit grab the sphere and open a drag session. -/
def onTouchStartOne (st : GState) (hit : Option ℕ) (x y t : ℚ) : GState :=
  let st1 := { st with touchStartPosition := some (x, y) }
  match hit with
  | some i =>
    { st1 with
      selectedSphere := some i
      spheres := setFlag st1.spheres i true
      isDragging := true
      touchStart := some (x, y, t) }
  | none => { st1 with touchStart := some (x, y, t) }

/-- Model of `onTouchMove`, two-finger branch: zoom the camera (not modelled) and
record the new pinch distance. -/
def onTouchMovePinch (st : GState) (dist : ℚ) : GState :=
  { st with lastPinchDistance := dist }

/-- Model of `onTouchMove`, single-touch branch.  While dragging: reproject the
pointer (`proj`), pin the plane, and recompute the velocity from the
frame-to-frame displacement over elapsed time, scaled by `0.05`; then
re-anchor `touchStart`.  With no session: pan the camera (not modelled)
and re-anchor `touchStart`. -/
def onTouchMoveOne (st : GState) (x y t : ℚ) (proj : ℚ × ℚ × ℚ) : GState :=
  match st.selectedSphere, st.isDragging with
  | some i, true =>
    match st.spheres[i]? with
    | none => st
    | some sp =>
      let sp1 := { sp with posX := proj.1, posY := proj.2.1, posZ := 0 }
      match st.touchStart with
      | some (sx, sy, t0) =>
        let deltaX := x - sx
        let deltaY := y - sy
        let deltaTime := t - t0
        let sp2 := { sp1 with
          velX := jsMul (jsDiv deltaX deltaTime) (1/20)
          velY := jsMul (jsNeg (jsDiv deltaY deltaTime)) (1/20)
          velZ := JSQ.fin 0 }
        { st with spheres := st.spheres.set i sp2, touchStart := some (x, y, t) }
      | none => { st with spheres := st.spheres.set i sp1 }
  | none, false =>
    match st.touchStart with
    | some _ => { st with touchStart := some (x, y, t) }
    | none => st
  | _, _ => st

/-- Model of `onTouchEnd`: reset pinch tracking, emit a tap (open the detail modal)
when the total displacement stayed under the 10-pixel threshold on both
axes and a sphere is selected, then end any drag session and clear the
gesture record.  Returns the new state and the emitted modal id. -/
def onTouchEnd (st : GState) (x y : ℚ) (remaining : ℕ) : GState × Option ℕ :=
  let st1 := if remaining < 2 then { st with lastPinchDistance := 0 } else st
  let modal : Option ℕ :=
    match st1.touchStartPosition, st1.selectedSphere with
    | some (sx, sy), some i =>
      if |x - sx| < 10 ∧ |y - sy| < 10 then (st1.spheres[i]?).map (·.id)
      else none
    | _, _ => none
  let st2 :=
    match st1.selectedSphere, st1.isDragging with
    | some i, true =>
      { st1 with
        spheres := setFlag st1.spheres i false
        selectedSphere := none
        isDragging := false }
    | _, _ => st1
  ({ st2 with touchStart := none, touchStartPosition := none }, modal)

/-- Model of `onMouseDown`: record the press position, reset the drag-detection
flag, hit-test, and either grab the hit sphere or start panning. -/
def onMouseDown (st : GState) (hit : Option ℕ) (x y : ℚ) : GState :=
  let st1 := { st with mouseDownPosition := some (x, y), hasDraggedMouse := false }
  match hit with
  | some i =>
    { st1 with
      selectedSphere := some i
      spheres := setFlag st1.spheres i true
      isDragging := true }
  | none => { st1 with isPanning := true }

/-- Model of `onMouseMove`: latch `hasDraggedMouse` once the pointer moves more
than 5 pixels from the press point; while dragging, reproject the pointer
onto the sphere and assign a small random velocity (`r1`, `r2` are the two
`Math.random()` samples); while panning, move the camera (not modelled). -/
def onMouseMove (st : GState) (x y r1 r2 : ℚ) (proj : ℚ × ℚ × ℚ) : GState :=
  let st1 :=
    match st.mouseDownPosition with
    | some (mx, my) =>
      if st.hasDraggedMouse = false ∧ (|x - mx| > 5 ∨ |y - my| > 5) then
        { st with hasDraggedMouse := true }
      else st
    | none => st
  match st1.selectedSphere, st1.isDragging with
  | some i, true =>
    match st1.spheres[i]? with
    | none => st1
    | some sp =>
      let sp1 := { sp with
        posX := proj.1, posY := proj.2.1, posZ := 0
        velX := JSQ.fin ((r1 - 1/2) * (1/20))
        velY := JSQ.fin ((r2 - 1/2) * (1/20))
        velZ := JSQ.fin 0 }
      { st1 with spheres := st1.spheres.set i sp1 }
  | _, _ => st1

/-- Model of `onMouseUp`: end any drag session, stop panning, clear the press
record. -/
def onMouseUp (st : GState) : GState :=
  let st1 :=
    match st.selectedSphere, st.isDragging with
    | some i, true =>
      { st with
        spheres := setFlag st.spheres i false
        selectedSphere := none
        isDragging := false }
    | _, _ => st
  { st1 with isPanning := false, mouseDownPosition := none }

/-- Model of `onClick`: a click after a drag is consumed silently (clearing the
latch); otherwise hit-test at the click point and open the detail modal
for the hit sphere. -/
def onClick (st : GState) (hit : Option ℕ) : GState × Option ℕ :=
  if st.hasDraggedMouse then ({ st with hasDraggedMouse := false }, none)
  else (st, hit.bind fun i => (st.spheres[i]?).map (·.id))

/-- A pointer event, carrying the externally supplied data: client
coordinates, `Date.now()` timestamps, raycaster hit results and projected
world points. -/
inductive PEvent where
  | touchStartOne (hit : Option ℕ) (x y t : ℚ)
  | touchStartPinch (dist : ℚ)
  | touchMoveOne (x y t : ℚ) (proj : ℚ × ℚ × ℚ)
  | touchMovePinch (dist : ℚ)
  | touchEnd (x y : ℚ) (remaining : ℕ)
  | mouseDown (hit : Option ℕ) (x y : ℚ)
  | mouseMove (x y r1 r2 : ℚ) (proj : ℚ × ℚ × ℚ)
  | mouseUp
  | click (hit : Option ℕ)
  deriving DecidableEq, Repr

/-- Dispatch one pointer event; the second component is the detail-modal
id emitted by the event, if any. -/
def gStep (st : GState) : PEvent → GState × Option ℕ
  | .touchStartOne hit x y t => (onTouchStartOne st hit x y t, none)
  | .touchStartPinch dist => (onTouchStartPinch st dist, none)
  | .touchMoveOne x y t proj => (onTouchMoveOne st x y t proj, none)
  | .touchMovePinch dist => (onTouchMovePinch st dist, none)
  | .touchEnd x y remaining => onTouchEnd st x y remaining
  | .mouseDown hit x y => (onMouseDown st hit x y, none)
  | .mouseMove x y r1 r2 proj => (onMouseMove st x y r1 r2 proj, none)
  | .mouseUp => (onMouseUp st, none)
  | .click hit => onClick st hit

/-- Run a sequence of pointer events. -/
def gRun (st : GState) : List PEvent → GState
  | [] => st
  | e :: es => gRun (gStep st e).1 es

/-- The detail-modal ids emitted along a sequence of pointer events. -/
def gSignals (st : GState) : List PEvent → List ℕ
  | [] => []
  | e :: es => (gStep st e).2.toList ++ gSignals (gStep st e).1 es

/-! ### Drag-move velocity (C2, C3) -/

/-- A grabbed sphere at the origin with zero velocity. -/
def dragSphere : GSphere :=
  { id := 7, posX := 0, posY := 0, posZ := 0
    velX := .fin 0, velY := .fin 0, velZ := .fin 0, isDragging := true }

/-- A state in mid-drag: `dragSphere` is grabbed, the gesture sample is at
`(0, 0)` with timestamp `100`, and the mouse press point is `(5, 5)`. -/
def dragState : GState :=
  { spheres := [dragSphere]
    selectedSphere := some 0
    isDragging := true
    touchStart := some (0, 0, 100)
    touchStartPosition := some (0, 0)
    lastPinchDistance := 0
    mouseDownPosition := some (5, 5)
    hasDraggedMouse := false
    isPanning := false }

/-- C2: the code has no zero-elapsed-time guard.  A drag-move event in
the same millisecond as the previous gesture sample (`deltaTime = 0`)
stores `Infinity` into `velocity.x` (`3 / 0`) and `NaN` into `velocity.y`
(`-(0 / 0) * 0.05`), instead of leaving the velocity (previously `0`)
unchanged. -/
theorem touchMove_zero_dt_infinite_velocity :
    ((gStep dragState (.touchMoveOne 3 0 100 (1, 2, 0))).1.spheres[0]?).map
        (·.velX) = some JSQ.posInf ∧
    ((gStep dragState (.touchMoveOne 3 0 100 (1, 2, 0))).1.spheres[0]?).map
        (·.velY) = some JSQ.nan ∧
    (dragState.spheres[0]?).map (·.velX) = some (JSQ.fin 0) := by
  refine ⟨?_, ?_, rfl⟩ <;>
    norm_num [gStep, onTouchMoveOne, dragState, dragSphere, jsDiv, jsMul, jsNeg]

/-- C3, counterexample: during a mouse drag the pointer stays at the
press point `(5, 5)` (frame-to-frame displacement zero, so a
displacement-rate velocity would be `0` whatever the elapsed time), yet
with `Math.random()` samples `0.9` and `0.5` the code stores
`velocity.x = (0.9 - 0.5) * 0.05 = 1/50 ≠ 0`: the mouse path assigns a
random velocity, not the displacement rate. -/
theorem mouseMove_velocity_random_cex :
    ((gStep dragState (.mouseMove 5 5 (9/10) (1/2) (2, 3, 0))).1.spheres[0]?).map
        (·.velX) = some (JSQ.fin (1/50)) ∧
    JSQ.fin (1/50) ≠ JSQ.fin 0 := by
  constructor
  · norm_num [gStep, onMouseMove, dragState, dragSphere]
  · intro h
    rw [JSQ.fin.injEq] at h
    norm_num at h

/-- C3, amended: on the touch path, every drag-move event with positive
elapsed time sets the grabbed sphere's velocity to the frame-to-frame
pointer displacement divided by the elapsed time, times the scale factor
`0.05` (screen `y` is negated into world `y`, and the `z` component is
zeroed).  The mouse path instead assigns a random velocity. -/
theorem touchMove_velocity_displacement_rate (st : GState) (i : ℕ)
    (sp : GSphere) (x y t sx sy t0 : ℚ) (proj : ℚ × ℚ × ℚ)
    (hsel : st.selectedSphere = some i) (hdrag : st.isDragging = true)
    (hsp : st.spheres[i]? = some sp) (hts : st.touchStart = some (sx, sy, t0))
    (hdt : t0 < t) :
    ((gStep st (.touchMoveOne x y t proj)).1.spheres[i]?).map (·.velX) =
        some (.fin ((x - sx) / (t - t0) * (1/20))) ∧
    ((gStep st (.touchMoveOne x y t proj)).1.spheres[i]?).map (·.velY) =
        some (.fin (-((y - sy) / (t - t0)) * (1/20))) ∧
    ((gStep st (.touchMoveOne x y t proj)).1.spheres[i]?).map (·.velZ) =
        some (.fin 0) := by
  have hlen : i < st.spheres.length := by
    by_contra h
    rw [List.getElem?_eq_none (Nat.le_of_not_lt h)] at hsp
    exact Option.noConfusion hsp
  have hne : t - t0 ≠ 0 := sub_ne_zero.mpr (ne_of_gt hdt)
  simp only [gStep, onTouchMoveOne, hsel, hdrag, hsp, hts]
  rw [List.getElem?_set_self hlen]
  simp only [Option.map_some', jsDiv, if_neg hne, jsNeg, jsMul]
  exact ⟨trivial, trivial, trivial⟩

/-- Witness for `touchMove_velocity_displacement_rate`: a concrete
drag-move 50 ms and 3 pixels right of the previous sample. -/
theorem touchMove_velocity_displacement_rate_witness :
    ((gStep dragState (.touchMoveOne 3 0 150 (1, 2, 0))).1.spheres[0]?).map
        (·.velX) = some (.fin ((3 - 0) / (150 - 100) * (1/20))) ∧
    ((gStep dragState (.touchMoveOne 3 0 150 (1, 2, 0))).1.spheres[0]?).map
        (·.velY) = some (.fin (-((0 - 0) / (150 - 100)) * (1/20))) ∧
    ((gStep dragState (.touchMoveOne 3 0 150 (1, 2, 0))).1.spheres[0]?).map
        (·.velZ) = some (.fin 0) :=
  touchMove_velocity_displacement_rate dragState 0 dragSphere 3 0 150 0 0 100
    (1, 2, 0) rfl rfl rfl rfl (by norm_num)

/-! ### Grabbed-flag invariant (C9) -/

/-- Number of spheres whose grabbed flag is set. -/
def grabbedCount (st : GState) : ℕ := st.spheres.countP (·.isDragging)

/-- The pointer-session agreement invariant of the data model: every sphere
whose grabbed flag is set is the sphere referenced by a live drag session. -/
def GrabConsistent (st : GState) : Prop :=
  ∀ i ∈ List.range st.spheres.length,
    ((st.spheres[i]?).map (·.isDragging)).getD false = true →
      st.isDragging = true ∧ st.selectedSphere = some i

instance (st : GState) : Decidable (GrabConsistent st) := by
  unfold GrabConsistent
  infer_instance

theorem grabConsistent_iff (st : GState) :
    GrabConsistent st ↔ ∀ i sp, st.spheres[i]? = some sp →
      sp.isDragging = true → st.isDragging = true ∧ st.selectedSphere = some i := by
  constructor
  · intro h i sp hsp hf
    have hi : i < st.spheres.length := (List.getElem?_eq_some.mp hsp).1
    have h2 := h i (List.mem_range.mpr hi)
    rw [hsp] at h2
    exact h2 (by simpa using hf)
  · intro h i _ hf
    rcases hsp : st.spheres[i]? with _ | sp
    · rw [hsp] at hf
      simp at hf
    · rw [hsp] at hf
      exact h i sp hsp (by simpa using hf)

theorem countP_le_one_of_unique (l : List GSphere)
    (h : ∀ i j : ℕ, ∀ spi spj, l[i]? = some spi → l[j]? = some spj →
      spi.isDragging = true → spj.isDragging = true → i = j) :
    l.countP (·.isDragging) ≤ 1 := by
  induction l with
  | nil => simp
  | cons a l ih =>
    rw [List.countP_cons]
    by_cases ha : a.isDragging = true
    · have hzero : l.countP (·.isDragging) = 0 := by
        rw [List.countP_eq_zero]
        intro b hb hfb
        obtain ⟨k, hk⟩ := List.mem_iff_getElem?.mp hb
        have hk1 : (a :: l)[k + 1]? = some b := by simpa using hk
        have h0 : (a :: l)[0]? = some a := by simp
        have := h 0 (k + 1) a b h0 hk1 ha (by simpa using hfb)
        omega
      simp [hzero, ha]
    · have hle := ih (fun i j spi spj hi hj hfi hfj => by
        have := h (i + 1) (j + 1) spi spj (by simpa using hi) (by simpa using hj)
          hfi hfj
        omega)
      rw [if_neg ha]
      omega

theorem grabConsistent_count (st : GState) (h : GrabConsistent st) :
    grabbedCount st ≤ 1 := by
  apply countP_le_one_of_unique
  intro i j spi spj hi hj hfi hfj
  have h' := (grabConsistent_iff st).mp h
  have h1 := (h' i spi hi hfi).2
  have h2 := (h' j spj hj hfj).2
  rw [h1] at h2
  exact Option.some_inj.mp h2

/-- Pointwise description of `setFlag`. -/
theorem setFlag_getElem (l : List GSphere) (i : ℕ) (b : Bool) (j : ℕ) :
    (setFlag l i b)[j]? =
      if i = j then (l[i]?).map (fun sp => { sp with isDragging := b })
      else l[j]? := by
  unfold setFlag
  rcases hi : l[i]? with _ | sp
  · by_cases hij : i = j
    · subst hij
      simp [hi]
    · simp [hij]
  · have hlen : i < l.length := (List.getElem?_eq_some.mp hi).1
    by_cases hij : i = j
    · subst hij
      rw [if_pos rfl, List.getElem?_set_self hlen]
      rfl
    · rw [if_neg hij, List.getElem?_set_ne hij]

/-- A state transition that does not touch the grabbed flags, the session
sphere or the session flag preserves the agreement invariant. -/
theorem grabConsistent_of_fields (st st' : GState) (hg : GrabConsistent st)
    (hs : st'.selectedSphere = st.selectedSphere)
    (hd : st'.isDragging = st.isDragging)
    (hsp : ∀ i : ℕ, (st'.spheres[i]?).map (·.isDragging) =
      (st.spheres[i]?).map (·.isDragging)) : GrabConsistent st' := by
  rw [grabConsistent_iff]
  intro i sp hi hf
  have h1 : ((st.spheres[i]?).map (·.isDragging)) = some true := by
    rw [← hsp i, hi, Option.map_some', hf]
  obtain ⟨sp0, hsp0, hf0⟩ := Option.map_eq_some'.mp h1
  have := (grabConsistent_iff st).mp hg i sp0 hsp0 hf0
  exact ⟨hd.trans this.1, hs.trans this.2⟩

/-- Updating a sphere in place without changing its grabbed flag leaves
the flag view of the list unchanged. -/
theorem set_preserve_flag (l : List GSphere) (i : ℕ) (sp spNew : GSphere)
    (hi : l[i]? = some sp) (hflag : spNew.isDragging = sp.isDragging) :
    ∀ j : ℕ, ((l.set i spNew)[j]?).map (·.isDragging) =
      (l[j]?).map (·.isDragging) := by
  intro j
  by_cases hij : i = j
  · subst hij
    rw [List.getElem?_set_self (List.getElem?_eq_some.mp hi).1, hi,
      Option.map_some', Option.map_some', hflag]
  · rw [List.getElem?_set_ne hij]

/-- Grabbing a sphere from a session-free, flag-free state establishes the
agreement invariant. -/
theorem grabConsistent_grab (st st' : GState) (j : ℕ)
    (hnone : ∀ (i : ℕ) (sp : GSphere), st.spheres[i]? = some sp →
      sp.isDragging = false)
    (hsp : st'.spheres = setFlag st.spheres j true)
    (hsel : st'.selectedSphere = some j) (hd : st'.isDragging = true) :
    GrabConsistent st' := by
  rw [grabConsistent_iff]
  intro i sp hi hf
  rw [hsp, setFlag_getElem] at hi
  by_cases hij : j = i
  · exact ⟨hd, hij ▸ hsel⟩
  · rw [if_neg hij] at hi
    rw [hnone i sp hi] at hf
    exact Bool.noConfusion hf

/-- Clearing the grabbed flag of the session sphere and closing the
session leaves no flagged sphere, so the invariant holds vacuously. -/
theorem grabConsistent_clear (st st' : GState) (j : ℕ)
    (hg : GrabConsistent st) (hjsel : st.selectedSphere = some j)
    (hsp : st'.spheres = setFlag st.spheres j false) :
    GrabConsistent st' := by
  rw [grabConsistent_iff]
  intro i sp hi hf
  rw [hsp, setFlag_getElem] at hi
  by_cases hij : j = i
  · rw [if_pos hij] at hi
    rcases hj : st.spheres[j]? with _ | spj
    · rw [hj] at hi
      exact Option.noConfusion hi
    · rw [hj, Option.map_some'] at hi
      cases Option.some_inj.mp hi
      exact Bool.noConfusion hf
  · rw [if_neg hij] at hi
    have := ((grabConsistent_iff st).mp hg i sp hi hf).2
    rw [hjsel] at this
    exact absurd (Option.some_inj.mp this) hij

/-- Single-pointer press events (the ones that can open a drag session). -/
def isPress : PEvent → Bool
  | .touchStartOne _ _ _ _ => true
  | .mouseDown _ _ _ => true
  | _ => false

/-- A well-formed event sequence: a press only fires when no drag session
is active (presses and releases of a single pointer alternate). -/
def wellFormedB (st : GState) : List PEvent → Bool
  | [] => true
  | e :: es => (!(isPress e) || !st.isDragging) && wellFormedB (gStep st e).1 es

theorem gStep_grabConsistent (st : GState) (e : PEvent)
    (hg : GrabConsistent st) (hp : isPress e = true → st.isDragging = false) :
    GrabConsistent (gStep st e).1 := by
  have hiff := (grabConsistent_iff st).mp hg
  cases e with
  | touchStartOne hit x y t =>
    have hd : st.isDragging = false := hp rfl
    have hnone : ∀ (i : ℕ) (sp : GSphere), st.spheres[i]? = some sp →
        sp.isDragging = false := by
      intro i sp hi
      by_contra hf
      rw [Bool.not_eq_false] at hf
      rw [(hiff i sp hi hf).1] at hd
      exact Bool.noConfusion hd
    cases hit with
    | some j =>
      exact grabConsistent_grab st _ j hnone rfl rfl rfl
    | none =>
      rw [grabConsistent_iff]
      intro i sp hi hf
      rw [hnone i sp hi] at hf
      exact Bool.noConfusion hf
  | touchStartPinch dist =>
    exact grabConsistent_of_fields st _ hg rfl rfl (fun _ => rfl)
  | touchMoveOne x y t proj =>
    show GrabConsistent (onTouchMoveOne st x y t proj)
    unfold onTouchMoveOne
    rcases hsel : st.selectedSphere with _ | i <;> cases hdr : st.isDragging
    · rcases hts : st.touchStart with _ | ⟨sx, sy, t0⟩ <;>
        exact grabConsistent_of_fields _ _ hg (by simp [hsel]) (by simp [hdr]) (fun _ => rfl)
    · exact grabConsistent_of_fields _ _ hg (by simp [hsel]) (by simp [hdr]) (fun _ => rfl)
    · exact grabConsistent_of_fields _ _ hg (by simp [hsel]) (by simp [hdr]) (fun _ => rfl)
    · dsimp only
      rcases hsp : st.spheres[i]? with _ | sp
      · exact grabConsistent_of_fields _ _ hg (by simp [hsel]) (by simp [hdr]) (fun _ => rfl)
      · rcases hts : st.touchStart with _ | ⟨sx, sy, t0⟩
        · exact grabConsistent_of_fields _ _ hg (by simp [hsel]) (by simp [hdr])
            (set_preserve_flag st.spheres i sp _ hsp rfl)
        · exact grabConsistent_of_fields _ _ hg (by simp [hsel]) (by simp [hdr])
            (set_preserve_flag st.spheres i sp _ hsp rfl)
  | touchMovePinch dist =>
    exact grabConsistent_of_fields st _ hg rfl rfl (fun _ => rfl)
  | touchEnd x y remaining =>
    show GrabConsistent (onTouchEnd st x y remaining).1
    unfold onTouchEnd
    by_cases hr : remaining < 2 <;> [rw [if_pos hr]; rw [if_neg hr]] <;>
      dsimp only <;>
      (rcases hsel : st.selectedSphere with _ | i <;> cases hdr : st.isDragging)
    · exact grabConsistent_of_fields _ _ hg (by simp [hsel]) (by simp [hdr]) (fun _ => rfl)
    · exact grabConsistent_of_fields _ _ hg (by simp [hsel]) (by simp [hdr]) (fun _ => rfl)
    · exact grabConsistent_of_fields _ _ hg (by simp [hsel]) (by simp [hdr]) (fun _ => rfl)
    · exact grabConsistent_clear _ _ i hg hsel rfl
    · exact grabConsistent_of_fields _ _ hg (by simp [hsel]) (by simp [hdr]) (fun _ => rfl)
    · exact grabConsistent_of_fields _ _ hg (by simp [hsel]) (by simp [hdr]) (fun _ => rfl)
    · exact grabConsistent_of_fields _ _ hg (by simp [hsel]) (by simp [hdr]) (fun _ => rfl)
    · exact grabConsistent_clear _ _ i hg hsel rfl
  | mouseDown hit x y =>
    have hd : st.isDragging = false := hp rfl
    have hnone : ∀ (i : ℕ) (sp : GSphere), st.spheres[i]? = some sp →
        sp.isDragging = false := by
      intro i sp hi
      by_contra hf
      rw [Bool.not_eq_false] at hf
      rw [(hiff i sp hi hf).1] at hd
      exact Bool.noConfusion hd
    cases hit with
    | some j =>
      exact grabConsistent_grab st _ j hnone rfl rfl rfl
    | none =>
      rw [grabConsistent_iff]
      intro i sp hi hf
      rw [hnone i sp hi] at hf
      exact Bool.noConfusion hf
  | mouseMove x y r1 r2 proj =>
    show GrabConsistent (onMouseMove st x y r1 r2 proj)
    unfold onMouseMove
    rcases hmdp : st.mouseDownPosition with _ | ⟨mx, my⟩
    · dsimp only
      rcases hsel : st.selectedSphere with _ | i <;> cases hdr : st.isDragging
      · exact grabConsistent_of_fields _ _ hg (by simp [hsel]) (by simp [hdr]) (fun _ => rfl)
      · exact grabConsistent_of_fields _ _ hg (by simp [hsel]) (by simp [hdr]) (fun _ => rfl)
      · exact grabConsistent_of_fields _ _ hg (by simp [hsel]) (by simp [hdr]) (fun _ => rfl)
      · dsimp only
        rcases hsp : st.spheres[i]? with _ | sp
        · exact grabConsistent_of_fields _ _ hg (by simp [hsel]) (by simp [hdr]) (fun _ => rfl)
        · exact grabConsistent_of_fields _ _ hg (by simp [hsel]) (by simp [hdr])
            (set_preserve_flag st.spheres i sp _ hsp rfl)
    · dsimp only
      by_cases hlatch : st.hasDraggedMouse = false ∧ (|x - mx| > 5 ∨ |y - my| > 5) <;>
        [rw [if_pos hlatch]; rw [if_neg hlatch]] <;>
        (try dsimp only) <;>
        (rcases hsel : st.selectedSphere with _ | i <;> cases hdr : st.isDragging)
      · exact grabConsistent_of_fields _ _ hg (by simp [hsel]) (by simp [hdr]) (fun _ => rfl)
      · exact grabConsistent_of_fields _ _ hg (by simp [hsel]) (by simp [hdr]) (fun _ => rfl)
      · exact grabConsistent_of_fields _ _ hg (by simp [hsel]) (by simp [hdr]) (fun _ => rfl)
      · dsimp only
        rcases hsp : st.spheres[i]? with _ | sp
        · exact grabConsistent_of_fields _ _ hg (by simp [hsel]) (by simp [hdr]) (fun _ => rfl)
        · exact grabConsistent_of_fields _ _ hg (by simp [hsel]) (by simp [hdr])
            (set_preserve_flag st.spheres i sp _ hsp rfl)
      · exact grabConsistent_of_fields _ _ hg (by simp [hsel]) (by simp [hdr]) (fun _ => rfl)
      · exact grabConsistent_of_fields _ _ hg (by simp [hsel]) (by simp [hdr]) (fun _ => rfl)
      · exact grabConsistent_of_fields _ _ hg (by simp [hsel]) (by simp [hdr]) (fun _ => rfl)
      · dsimp only
        rcases hsp : st.spheres[i]? with _ | sp
        · exact grabConsistent_of_fields _ _ hg (by simp [hsel]) (by simp [hdr]) (fun _ => rfl)
        · exact grabConsistent_of_fields _ _ hg (by simp [hsel]) (by simp [hdr])
            (set_preserve_flag st.spheres i sp _ hsp rfl)
  | mouseUp =>
    show GrabConsistent (onMouseUp st)
    unfold onMouseUp
    rcases hsel : st.selectedSphere with _ | i <;> cases hdr : st.isDragging
    · exact grabConsistent_of_fields _ _ hg (by simp [hsel]) (by simp [hdr]) (fun _ => rfl)
    · exact grabConsistent_of_fields _ _ hg (by simp [hsel]) (by simp [hdr]) (fun _ => rfl)
    · exact grabConsistent_of_fields _ _ hg (by simp [hsel]) (by simp [hdr]) (fun _ => rfl)
    · exact grabConsistent_clear _ _ i hg hsel rfl
  | click hit =>
    show GrabConsistent (onClick st hit).1
    unfold onClick
    cases hdm : st.hasDraggedMouse <;>
      exact grabConsistent_of_fields _ _ hg rfl rfl (fun _ => rfl)

/-- An idle scene of two ungrabbed spheres with no gesture in progress. -/
def idleTwoState : GState :=
  { spheres :=
      [{ id := 1, posX := 0, posY := 0, posZ := 0, velX := .fin 0
         velY := .fin 0, velZ := .fin 0, isDragging := false },
       { id := 2, posX := 0, posY := 0, posZ := 0, velX := .fin 0
         velY := .fin 0, velZ := .fin 0, isDragging := false }]
    selectedSphere := none, isDragging := false, touchStart := none
    touchStartPosition := none, lastPinchDistance := 0
    mouseDownPosition := none, hasDraggedMouse := false
    isPanning := false }

/-- C9, counterexample: from an idle two-sphere scene, a mouse press
that grabs sphere 0 followed by a single-finger touch press that grabs
sphere 1 (events the handlers accept in this order, since the touch path
never releases the mouse grab) leaves BOTH grabbed flags set: the
at-most-one-grabbed invariant fails under arbitrary interleavings. -/
theorem grabbed_invariant_cex :
    ¬ (grabbedCount (gRun idleTwoState
        [.mouseDown (some 0) 0 0, .touchStartOne (some 1) 1 1 0]) ≤ 1) := by
  decide

/-- C9, amended: in every state reachable from a state satisfying the
grabbed/session agreement invariant by a well-formed pointer-event
sequence (one in which a press fires only while no drag session is
active, as a single browser pointer produces), at most one sphere has its
grabbed flag set. -/
theorem grabbed_at_most_one_wellformed (st : GState) (es : List PEvent)
    (hg : GrabConsistent st) (hwf : wellFormedB st es = true) :
    grabbedCount (gRun st es) ≤ 1 := by
  induction es generalizing st with
  | nil => exact grabConsistent_count st hg
  | cons e es ih =>
    rw [wellFormedB, Bool.and_eq_true] at hwf
    refine ih (gStep st e).1 (gStep_grabConsistent st e hg ?_) hwf.2
    intro hpress
    have h1 := hwf.1
    rw [hpress, Bool.not_true, Bool.false_or, Bool.not_eq_true'] at h1
    exact h1

/-- Witness for `grabbed_at_most_one_wellformed`: a concrete well-formed
mouse gesture followed by a touch grab. -/
theorem grabbed_at_most_one_wellformed_witness :
    GrabConsistent idleTwoState ∧
    wellFormedB idleTwoState
      [.mouseDown (some 0) 2 3, .mouseUp, .touchStartOne (some 1) 0 0 0] = true ∧
    grabbedCount (gRun idleTwoState
      [.mouseDown (some 0) 2 3, .mouseUp, .touchStartOne (some 1) 0 0 0]) ≤ 1 :=
  ⟨by decide, by decide,
    grabbed_at_most_one_wellformed idleTwoState
      [.mouseDown (some 0) 2 3, .mouseUp, .touchStartOne (some 1) 0 0 0]
      (by decide) (by decide)⟩

/-! ### Tap gesture (C8) -/

/-- C8: a gesture that hit-tests onto a sphere and ends with a total
pointer displacement of 3 pixels (below both the 10-pixel touch tap
threshold and the 5-pixel mouse drag threshold) emits exactly one
"open detail view" signal for that sphere and leaves no sphere grabbed
afterwards — on the touch path (touch-start, touch-end) and on the mouse
path (mouse-down, mouse-move, mouse-up, click re-hitting the sphere). -/
theorem tap_gesture_signal_no_grab (st : GState) (i : ℕ) (sp : GSphere)
    (x y t r1 r2 : ℚ) (proj : ℚ × ℚ × ℚ)
    (hsp : st.spheres[i]? = some sp)
    (hflags : ∀ s ∈ st.spheres, s.isDragging = false) :
    (gSignals st [.touchStartOne (some i) x y t, .touchEnd (x + 3) y 0] =
        [sp.id] ∧
      (∀ s ∈ (gRun st
        [.touchStartOne (some i) x y t, .touchEnd (x + 3) y 0]).spheres,
        s.isDragging = false) ∧
      (gRun st
        [.touchStartOne (some i) x y t, .touchEnd (x + 3) y 0]).selectedSphere
        = none) ∧
    (gSignals st [.mouseDown (some i) x y, .mouseMove (x + 3) y r1 r2 proj,
        .mouseUp, .click (some i)] = [sp.id] ∧
      (∀ s ∈ (gRun st [.mouseDown (some i) x y,
        .mouseMove (x + 3) y r1 r2 proj, .mouseUp, .click (some i)]).spheres,
        s.isDragging = false) ∧
      (gRun st [.mouseDown (some i) x y, .mouseMove (x + 3) y r1 r2 proj,
        .mouseUp, .click (some i)]).selectedSphere = none) := by
  have hlen : i < st.spheres.length := (List.getElem?_eq_some.mp hsp).1
  have hset : setFlag st.spheres i true =
      st.spheres.set i { sp with isDragging := true } := by
    unfold setFlag
    rw [hsp]
  have hgetT : (st.spheres.set i { sp with isDragging := true })[i]? =
      some { sp with isDragging := true } := List.getElem?_set_self hlen
  have habs : |x + 3 - x| < 10 ∧ |y - y| < 10 := by
    constructor <;> ring_nf <;> norm_num
  -- touch path --------------------------------------------------------
  have hsetF : setFlag (setFlag st.spheres i true) i false =
      st.spheres.set i { sp with isDragging := false } := by
    rw [hset]
    unfold setFlag
    rw [hgetT]
    dsimp only
    rw [List.set_set]
  have hmodalT : (onTouchEnd (onTouchStartOne st (some i) x y t)
      (x + 3) y 0).2 = some sp.id := by
    unfold onTouchStartOne onTouchEnd
    rw [if_pos (show (0 : ℕ) < 2 by norm_num)]
    dsimp only
    rw [if_pos habs, hset, hgetT]
    rfl
  have hendT : (onTouchEnd (onTouchStartOne st (some i) x y t)
      (x + 3) y 0).1 =
      { st with
        touchStartPosition := none
        selectedSphere := none
        spheres := setFlag (setFlag st.spheres i true) i false
        isDragging := false
        touchStart := none
        lastPinchDistance := 0 } := by
    unfold onTouchStartOne onTouchEnd
    rw [if_pos (show (0 : ℕ) < 2 by norm_num)]
  -- mouse path --------------------------------------------------------
  have hno : ¬ ((false : Bool) = false ∧ (|x + 3 - x| > 5 ∨ |y - y| > 5)) := by
    rintro ⟨-, h | h⟩ <;> (ring_nf at h; norm_num at h)
  have hmm : onMouseMove (onMouseDown st (some i) x y) (x + 3) y r1 r2 proj =
      { st with
        mouseDownPosition := some (x, y)
        hasDraggedMouse := false
        selectedSphere := some i
        isDragging := true
        spheres := st.spheres.set i
          { id := sp.id, posX := proj.1, posY := proj.2.1, posZ := 0
            velX := .fin ((r1 - 1/2) * (1/20)), velY := .fin ((r2 - 1/2) * (1/20))
            velZ := .fin 0, isDragging := true } } := by
    unfold onMouseDown onMouseMove
    dsimp only
    rw [if_neg hno]
    dsimp only
    rw [hset, hgetT]
    dsimp only
    rw [List.set_set]
  have hgetM : (st.spheres.set i
      { id := sp.id, posX := proj.1, posY := proj.2.1, posZ := 0
        velX := .fin ((r1 - 1/2) * (1/20)), velY := .fin ((r2 - 1/2) * (1/20))
        velZ := .fin 0, isDragging := true })[i]? =
      some
      { id := sp.id, posX := proj.1, posY := proj.2.1, posZ := 0
        velX := .fin ((r1 - 1/2) * (1/20)), velY := .fin ((r2 - 1/2) * (1/20))
        velZ := .fin 0, isDragging := true } := List.getElem?_set_self hlen
  have hgetMF : (st.spheres.set i
      { id := sp.id, posX := proj.1, posY := proj.2.1, posZ := 0
        velX := .fin ((r1 - 1/2) * (1/20)), velY := .fin ((r2 - 1/2) * (1/20))
        velZ := .fin 0, isDragging := false })[i]? =
      some
      { id := sp.id, posX := proj.1, posY := proj.2.1, posZ := 0
        velX := .fin ((r1 - 1/2) * (1/20)), velY := .fin ((r2 - 1/2) * (1/20))
        velZ := .fin 0, isDragging := false } := List.getElem?_set_self hlen
  have hmu : onMouseUp ({ st with
      mouseDownPosition := some (x, y)
      hasDraggedMouse := false
      selectedSphere := some i
      isDragging := true
      spheres := st.spheres.set i
        { id := sp.id, posX := proj.1, posY := proj.2.1, posZ := 0
          velX := .fin ((r1 - 1/2) * (1/20)), velY := .fin ((r2 - 1/2) * (1/20))
          velZ := .fin 0, isDragging := true } } : GState) =
      { st with
        mouseDownPosition := none
        hasDraggedMouse := false
        selectedSphere := none
        isDragging := false
        isPanning := false
        spheres := st.spheres.set i
          { id := sp.id, posX := proj.1, posY := proj.2.1, posZ := 0
            velX := .fin ((r1 - 1/2) * (1/20)), velY := .fin ((r2 - 1/2) * (1/20))
            velZ := .fin 0, isDragging := false } } := by
    unfold onMouseUp
    dsimp only
    unfold setFlag
    rw [hgetM]
    dsimp only
    rw [List.set_set]
  refine ⟨⟨?_, ?_, ?_⟩, ?_, ?_, ?_⟩
  · simp only [gSignals, gStep, Option.toList, hmodalT]
    rfl
  · simp only [gRun, gStep]
    rw [hendT]
    intro s hs
    rw [hsetF] at hs
    rcases List.mem_or_eq_of_mem_set hs with h | rfl
    · exact hflags s h
    · rfl
  · simp only [gRun, gStep]
    rw [hendT]
  · simp only [gSignals, gStep, Option.toList]
    rw [hmm, hmu]
    unfold onClick
    dsimp only
    rw [if_neg Bool.false_ne_true]
    dsimp only [Option.bind]
    rw [hgetMF]
    rfl
  · simp only [gRun, gStep]
    rw [hmm, hmu]
    unfold onClick
    dsimp only
    rw [if_neg Bool.false_ne_true]
    intro s hs
    rcases List.mem_or_eq_of_mem_set hs with h | rfl
    · exact hflags s h
    · rfl
  · simp only [gRun, gStep]
    rw [hmm, hmu]
    unfold onClick
    dsimp only
    rw [if_neg Bool.false_ne_true]

/-- Witness for `tap_gesture_signal_no_grab`: a concrete tap on sphere 0
of the idle two-sphere scene. -/
theorem tap_gesture_signal_no_grab_witness :
    gSignals idleTwoState
      [.touchStartOne (some 0) 1 2 3, .touchEnd (1 + 3) 2 0] =
      [(⟨1, 0, 0, 0, .fin 0, .fin 0, .fin 0, false⟩ : GSphere).id] :=
  (tap_gesture_signal_no_grab idleTwoState 0
    ⟨1, 0, 0, 0, .fin 0, .fin 0, .fin 0, false⟩ 1 2 3 (1/2) (1/3) (0, 0, 0)
    rfl (by decide)).1.1

/-! ## Physics model (updatePhysics, src/Client/app.js)

Positions and velocities are modelled over `ℝ` (the collision code takes
Euclidean distances and normalises vectors, so square roots are needed).
The vector operations mirror `THREE.Vector3`. -/

/-- A `THREE.Vector3` value. -/
structure V3 where
  x : ℝ
  y : ℝ
  z : ℝ

/-- Model of `Vector3.add`. -/
def V3.add (a b : V3) : V3 := ⟨a.x + b.x, a.y + b.y, a.z + b.z⟩

/-- Model of `Vector3.subVectors` / `Vector3.sub`. -/
def V3.sub (a b : V3) : V3 := ⟨a.x - b.x, a.y - b.y, a.z - b.z⟩

/-- Model of `Vector3.multiplyScalar`. -/
def V3.smul (v : V3) (c : ℝ) : V3 := ⟨v.x * c, v.y * c, v.z * c⟩

/-- Model of `Vector3.dot`. -/
def V3.dot (a b : V3) : ℝ := a.x * b.x + a.y * b.y + a.z * b.z

/-- Model of `Vector3.length`. -/
noncomputable def V3.length (v : V3) : ℝ :=
  Real.sqrt (v.x * v.x + v.y * v.y + v.z * v.z)

/-- Model of `Vector3.distanceTo`. -/
noncomputable def V3.distanceTo (a b : V3) : ℝ := (V3.sub a b).length

/-- Model of `Vector3.normalize`: `divideScalar(this.length() || 1)` — a zero
vector is divided by `1` and stays zero. -/
noncomputable def V3.normalize (v : V3) : V3 :=
  v.smul (1 / (if v.length = 0 then 1 else v.length))

/-- A sphere as seen by the physics step: mesh position, attached
velocity, and the `userData.isDragging` flag. -/
structure PSphere where
  pos : V3
  vel : V3
  isDragging : Bool

/-- The constant `physics.restitution`. -/
noncomputable def restitution : ℝ := 0.8

/-- The constant `physics.damping` (`physics.gravity` is `0` and never applied). -/
noncomputable def damping : ℝ := 0.98

/-- The per-sphere part of `updatePhysics`: skip grabbed spheres, Euler
integration, planar constraint (`z := 0`, `vz := 0`), boundary clamps with
restitution (`|x| ≤ 30`, `y ≤ 10`, `y ≥ -50`, the bottom test reading the
already-clamped `y`), then damping on every velocity component. -/
noncomputable def perSphereStep (sp : PSphere) : PSphere :=
  if sp.isDragging then sp
  else
    let p1 := sp.pos.add sp.vel
    let p2 : V3 := { p1 with z := 0 }
    let v2 : V3 := { sp.vel with z := 0 }
    let px := if |p2.x| > 30 then Real.sign p2.x * 30 else p2.x
    let vx := if |p2.x| > 30 then v2.x * (-restitution) else v2.x
    let py1 := if p2.y > 10 then (10 : ℝ) else p2.y
    let vy1 := if p2.y > 10 then v2.y * (-restitution) else v2.y
    let py2 := if py1 < -50 then (-50 : ℝ) else py1
    let vy2 := if py1 < -50 then vy1 * (-restitution) else vy1
    { pos := ⟨px, py2, p2.z⟩
      vel := (V3.smul ⟨vx, vy2, v2.z⟩ damping)
      isDragging := sp.isDragging }

/-- One iteration of the pairwise collision loop on the sphere family
`f`, for the index pair `ij` (with `ij.1 < ij.2` in the loop order).
The source reuses one `Vector3` object: `normal.multiplyScalar(speed *
restitution)` turns `normal` into the impulse in place, and the later
`normal.multiplyScalar(overlap)` scales that same object again, so the
positional separation actually applied is `impulse * overlap` rather than
the unit normal times the half-overlap. -/
noncomputable def collideStep {n : ℕ} (f : Fin n → PSphere)
    (ij : Fin n × Fin n) : Fin n → PSphere :=
  let s1 := f ij.1
  let s2 := f ij.2
  if s1.isDragging || s2.isDragging then f
  else
    let distance := s1.pos.distanceTo s2.pos
    if distance < 4 then
      let normal := (V3.sub s2.pos s1.pos).normalize
      let relativeVelocity := V3.sub s1.vel s2.vel
      let speed := relativeVelocity.dot normal
      if speed < 0 then f
      else
        let impulse := normal.smul (speed * restitution)
        let v1 := s1.vel.sub impulse
        let v2 := s2.vel.add impulse
        let overlap := (4 - distance) / 2
        let separation := impulse.smul overlap
        let p1 : V3 := { s1.pos.sub separation with z := 0 }
        let p2 : V3 := { s2.pos.add separation with z := 0 }
        Function.update
          (Function.update f ij.1 { s1 with pos := p1, vel := v1 })
          ij.2 { s2 with pos := p2, vel := v2 }
    else f

/-- The ordered list of index pairs `(i, j)` with `i < j`, as visited by
the nested `for` loops of the collision phase. -/
def allPairs (n : ℕ) : List (Fin n × Fin n) :=
  (List.finRange n).flatMap fun i =>
    ((List.finRange n).filter fun j => decide (i < j)).map fun j => (i, j)

/-- The sphere-to-sphere collision phase. -/
noncomputable def collisionPass {n : ℕ} (f : Fin n → PSphere) :
    Fin n → PSphere :=
  (allPairs n).foldl collideStep f

/-- The scene state read by `updatePhysics`: the spheres array and the
globals `isDragging` and `selectedSphere` (held as the index of the
referenced sphere). -/
structure PState (n : ℕ) where
  spheres : Fin n → PSphere
  isDragging : Bool
  selectedSphere : Option (Fin n)

/-- Model of `updatePhysics`: global short-circuit
(`if (isDragging && selectedSphere) return`), then the per-sphere phase
for every sphere, then the pairwise collision phase. -/
noncomputable def updatePhysics {n : ℕ} (st : PState n) : PState n :=
  if st.isDragging && st.selectedSphere.isSome then st
  else { st with spheres := collisionPass (fun i => perSphereStep (st.spheres i)) }

/-! ### Freeze-on-drag (C4) and planar constraint (C5) -/

/-- A scene whose sphere 0 has a stale grabbed flag while the global drag
session is closed (`isDragging = false`, `selectedSphere = null`), and
whose sphere 1 is moving. -/
noncomputable def staleFlagState : PState 2 :=
  { spheres := fun i =>
      if i = 0 then ⟨⟨0, 0, 0⟩, ⟨0, 0, 0⟩, true⟩
      else ⟨⟨5, 0, 0⟩, ⟨1, 0, 0⟩, false⟩
    isDragging := false
    selectedSphere := none }

/-- C4, counterexample: a sphere's grabbed flag alone does not freeze
the scene — the short-circuit tests the globals `isDragging &&
selectedSphere`, so with a set flag but a closed session the other
sphere still integrates (its `x` moves from 5 to 6). -/
theorem updatePhysics_freeze_flag_only_cex :
    (staleFlagState.spheres 0).isDragging = true ∧
    ((updatePhysics staleFlagState).spheres 1).pos.x = 6 ∧
    (staleFlagState.spheres 1).pos.x = 5 ∧ (6 : ℝ) ≠ 5 := by
  refine ⟨rfl, ?_, rfl, by norm_num⟩
  unfold updatePhysics
  rw [if_neg (by simp [staleFlagState])]
  unfold collisionPass collideStep perSphereStep
  norm_num [allPairs, List.finRange, staleFlagState, V3.add, V3.smul, damping]

/-- C4, amended: when a sphere is grabbed AND the pointer session
agrees (the globals `isDragging` and `selectedSphere` are set, as the
data-model invariant guarantees during a drag), one Physics Step leaves
every sphere — position, velocity and flag — unchanged. -/
theorem updatePhysics_freeze_on_drag {n : ℕ} (st : PState n) (i : Fin n)
    (_hflag : (st.spheres i).isDragging = true)
    (hdrag : st.isDragging = true)
    (hsel : st.selectedSphere.isSome = true) :
    ∀ j, (updatePhysics st).spheres j = st.spheres j := by
  intro j
  unfold updatePhysics
  rw [if_pos (by rw [hdrag, hsel]; rfl)]

/-- A one-sphere scene in mid-drag with the sphere off the plane. -/
noncomputable def dragPhysState : PState 1 :=
  { spheres := fun _ => ⟨⟨0, 0, 5⟩, ⟨0, 0, 2⟩, true⟩
    isDragging := true
    selectedSphere := some 0 }

/-- Witness for `updatePhysics_freeze_on_drag` on `dragPhysState`. -/
theorem updatePhysics_freeze_on_drag_witness :
    (updatePhysics dragPhysState).spheres 0 = dragPhysState.spheres 0 :=
  updatePhysics_freeze_on_drag dragPhysState 0 rfl rfl rfl 0

/-- C5, counterexample: for a grabbed sphere the Physics Step is
skipped entirely, so its off-plane coordinate stays `5 ≠ 0` (and its `z`
velocity stays `2 ≠ 0`) after the step. -/
theorem updatePhysics_z_grabbed_cex :
    ((updatePhysics dragPhysState).spheres 0).pos.z = 5 ∧
    ((updatePhysics dragPhysState).spheres 0).vel.z = 2 ∧
    (5 : ℝ) ≠ 0 ∧ (2 : ℝ) ≠ 0 := by
  refine ⟨?_, ?_, by norm_num, by norm_num⟩ <;>
    · unfold updatePhysics
      rw [if_pos (by rfl)]
      rfl

/-- The whole family lies on the `z = 0` plane with no off-plane motion. -/
def ZOK {n : ℕ} (f : Fin n → PSphere) : Prop :=
  ∀ i, (f i).pos.z = 0 ∧ (f i).vel.z = 0

theorem perSphereStep_z (sp : PSphere) (h : sp.isDragging = false) :
    (perSphereStep sp).pos.z = 0 ∧ (perSphereStep sp).vel.z = 0 := by
  unfold perSphereStep
  rw [if_neg (by rw [h]; exact Bool.false_ne_true)]
  exact ⟨rfl, by simp [V3.smul]⟩

theorem collideStep_z {n : ℕ} (f : Fin n → PSphere) (ij : Fin n × Fin n)
    (h : ZOK f) : ZOK (collideStep f ij) := by
  intro i
  obtain ⟨hz1, hv1⟩ := h ij.1
  obtain ⟨hz2, hv2⟩ := h ij.2
  unfold collideStep
  dsimp only
  split
  · exact h i
  · split
    · split
      · exact h i
      · simp only [Function.update_apply]
        split
        · constructor
          · rfl
          · simp [V3.add, V3.smul, V3.sub, V3.normalize, hz1, hz2, hv1, hv2]
        · split
          · constructor
            · rfl
            · simp [V3.sub, V3.smul, V3.normalize, hz1, hz2, hv1, hv2]
          · exact h i
    · exact h i

theorem collisionPass_z {n : ℕ} (f : Fin n → PSphere) (h : ZOK f) :
    ZOK (collisionPass f) := by
  unfold collisionPass
  generalize allPairs n = l
  induction l generalizing f with
  | nil => exact h
  | cons p l ih => exact ih (collideStep f p) (collideStep_z f p h)

/-- C5, amended: in a scene with no live drag session and no grabbed
sphere, one Physics Step leaves every sphere exactly on the `z = 0` plane
with zero `z` velocity. -/
theorem updatePhysics_z_plane_zero {n : ℕ} (st : PState n)
    (hd : (st.isDragging && st.selectedSphere.isSome) = false)
    (hf : ∀ i, (st.spheres i).isDragging = false) :
    ∀ i, ((updatePhysics st).spheres i).pos.z = 0 ∧
      ((updatePhysics st).spheres i).vel.z = 0 := by
  intro i
  unfold updatePhysics
  rw [if_neg (by rw [hd]; exact Bool.false_ne_true)]
  exact collisionPass_z _ (fun j => perSphereStep_z (st.spheres j) (hf j)) i

/-- A one-sphere scene, idle, with the sphere off the plane. -/
noncomputable def offPlaneState : PState 1 :=
  { spheres := fun _ => ⟨⟨1, 2, 3⟩, ⟨0, 1, 2⟩, false⟩
    isDragging := false
    selectedSphere := none }

/-- Witness for `updatePhysics_z_plane_zero` on `offPlaneState`. -/
theorem updatePhysics_z_plane_zero_witness :
    ((updatePhysics offPlaneState).spheres 0).pos.z = 0 ∧
    ((updatePhysics offPlaneState).spheres 0).vel.z = 0 :=
  updatePhysics_z_plane_zero offPlaneState rfl (fun _ => rfl) 0

/-! ### Boundary clamps (C6) -/

/-- A scene with a moving sphere one unit from a resting sphere parked
exactly on the `x = 30` wall; nothing is grabbed. -/
noncomputable def nearWallState : PState 2 :=
  { spheres := fun i =>
      if i = 0 then ⟨⟨28, 0, 0⟩, ⟨1, 0, 0⟩, false⟩
      else ⟨⟨30, 0, 0⟩, ⟨0, 0, 0⟩, false⟩
    isDragging := false
    selectedSphere := none }

/-- C6, counterexample: after one full Physics Step the resting,
non-grabbed sphere sits at `x = 3897/125 = 31.176 > 30`: the pairwise
collision phase runs after the boundary clamps and its positional
separation pushes the sphere back out of bounds. -/
theorem updatePhysics_bounds_cex :
    (nearWallState.spheres 0).isDragging = false ∧
    (nearWallState.spheres 1).isDragging = false ∧
    ((updatePhysics nearWallState).spheres 1).pos.x = 3897/125 ∧
    (30 : ℝ) < 3897/125 := by
  refine ⟨rfl, rfl, ?_, by norm_num⟩
  unfold updatePhysics
  rw [if_neg (by simp [nearWallState])]
  unfold collisionPass collideStep perSphereStep
  norm_num [allPairs, List.finRange, nearWallState, V3.add, V3.sub, V3.smul,
    V3.dot, V3.length, V3.distanceTo, V3.normalize, restitution, damping,
    Real.sqrt_one, Function.update]

/-- C6, amended: after the per-sphere phase of the Physics Step
(integration, planar constraint, boundary clamps, damping) every
non-grabbed sphere lies within the bounds `|x| ≤ 30`, `-50 ≤ y ≤ 10`, and
each clamped coordinate has its velocity multiplied by `-restitution`
(sign flipped, restitution- and damping-scaled). -/
theorem perSphereStep_bounds_clamp (sp : PSphere) (h : sp.isDragging = false) :
    |(perSphereStep sp).pos.x| ≤ 30 ∧
    (-50 ≤ (perSphereStep sp).pos.y ∧ (perSphereStep sp).pos.y ≤ 10) ∧
    (|sp.pos.x + sp.vel.x| > 30 →
      (perSphereStep sp).pos.x = Real.sign (sp.pos.x + sp.vel.x) * 30 ∧
      (perSphereStep sp).vel.x = sp.vel.x * (-restitution) * damping ∧
      Real.sign ((perSphereStep sp).vel.x) = -Real.sign sp.vel.x) ∧
    (sp.pos.y + sp.vel.y > 10 →
      (perSphereStep sp).pos.y = 10 ∧
      (perSphereStep sp).vel.y = sp.vel.y * (-restitution) * damping) ∧
    (sp.pos.y + sp.vel.y < -50 →
      (perSphereStep sp).pos.y = -50 ∧
      (perSphereStep sp).vel.y = sp.vel.y * (-restitution) * damping) := by
  unfold perSphereStep
  rw [if_neg (by rw [h]; exact Bool.false_ne_true)]
  dsimp only [V3.add, V3.smul]
  refine ⟨?_, ?_, ?_, ?_, ?_⟩
  · by_cases hx : |sp.pos.x + sp.vel.x| > 30
    · rw [if_pos hx]
      rcases lt_trichotomy (sp.pos.x + sp.vel.x) 0 with hlt | heq | hgt
      · rw [Real.sign_of_neg hlt]
        norm_num
      · exfalso
        rw [heq] at hx
        norm_num at hx
      · rw [Real.sign_of_pos hgt]
        norm_num
    · rw [if_neg hx]
      exact le_of_not_lt hx
  · by_cases hy1 : sp.pos.y + sp.vel.y > 10
    · simp only [if_pos hy1, if_neg (by norm_num : ¬ ((10 : ℝ) < -50))]
      norm_num
    · simp only [if_neg hy1]
      by_cases hy2 : sp.pos.y + sp.vel.y < -50
      · simp only [if_pos hy2]
        norm_num
      · simp only [if_neg hy2]
        exact ⟨le_of_not_lt hy2, le_of_not_lt hy1⟩
  · intro hx
    simp only [if_pos hx]
    refine ⟨by trivial, by trivial, ?_⟩
    rcases lt_trichotomy sp.vel.x 0 with hlt | heq | hgt
    · have hpos : 0 < sp.vel.x * -restitution * damping := by
        have h1 : 0 < sp.vel.x * -restitution :=
          mul_pos_of_neg_of_neg hlt (by norm_num [restitution])
        exact mul_pos h1 (by norm_num [damping])
      rw [Real.sign_of_pos hpos, Real.sign_of_neg hlt]
      norm_num
    · rw [heq]
      simp [Real.sign_zero]
    · have hneg : sp.vel.x * -restitution * damping < 0 := by
        have h1 : sp.vel.x * -restitution < 0 :=
          mul_neg_of_pos_of_neg hgt (by norm_num [restitution])
        exact mul_neg_of_neg_of_pos h1 (by norm_num [damping])
      rw [Real.sign_of_neg hneg, Real.sign_of_pos hgt]
  · intro hy
    simp only [if_pos hy, if_neg (by norm_num : ¬ ((10 : ℝ) < -50))]
    exact ⟨by trivial, by trivial⟩
  · intro hy
    have hy1 : ¬ (sp.pos.y + sp.vel.y > 10) := by linarith
    simp only [if_neg hy1, if_pos hy]
    exact ⟨by trivial, by trivial⟩

/-- Witness for `perSphereStep_bounds_clamp`: a sphere crossing the
right wall. -/
theorem perSphereStep_bounds_clamp_witness :
    |(perSphereStep ⟨⟨31, 0, 0⟩, ⟨1, 2, 0⟩, false⟩).pos.x| ≤ 30 :=
  (perSphereStep_bounds_clamp ⟨⟨31, 0, 0⟩, ⟨1, 2, 0⟩, false⟩ rfl).1

/-! ### Idempotence at rest (C7) -/

/-- An idle scene whose single resting sphere sits outside the wall at
`x = 31` (reachable, e.g. released there after the collision phase pushed
it out). -/
noncomputable def outOfBoundsState : PState 1 :=
  { spheres := fun _ => ⟨⟨31, 0, 0⟩, ⟨0, 0, 0⟩, false⟩
    isDragging := false
    selectedSphere := none }

/-- C7, counterexample: the premises of the claim hold (nothing
grabbed, all velocities zero, no overlapping pair), yet one Physics Step
changes the sphere: the boundary clamp moves `x` from 31 to 30. -/
theorem updatePhysics_idempotent_cex :
    (∀ i, (outOfBoundsState.spheres i).vel = ⟨0, 0, 0⟩ ∧
      (outOfBoundsState.spheres i).isDragging = false) ∧
    (∀ i j : Fin 1, i ≠ j →
      (outOfBoundsState.spheres i).pos.distanceTo
        ((outOfBoundsState.spheres j).pos) ≥ 4) ∧
    outOfBoundsState.isDragging = false ∧
    ((updatePhysics outOfBoundsState).spheres 0).pos.x = 30 ∧
    (outOfBoundsState.spheres 0).pos.x = 31 ∧ (30 : ℝ) ≠ 31 := by
  refine ⟨fun i => ⟨rfl, rfl⟩,
    fun i j hij => absurd (Subsingleton.elim i j) hij, rfl, ?_, rfl,
    by norm_num⟩
  unfold updatePhysics
  rw [if_neg (by simp [outOfBoundsState])]
  unfold collisionPass perSphereStep
  norm_num [allPairs, List.finRange, outOfBoundsState, V3.add, V3.smul,
    Real.sign, restitution, damping]

theorem foldl_fix {α : Type _} {β : Type _} (g : α → β → α) (a : α)
    (l : List β) (h : ∀ b ∈ l, g a b = a) : l.foldl g a = a := by
  induction l with
  | nil => rfl
  | cons b l ih =>
    rw [List.foldl_cons, h b (List.mem_cons_self b l)]
    exact ih fun b' hb' => h b' (List.mem_cons_of_mem b hb')

theorem allPairs_lt {n : ℕ} : ∀ p ∈ allPairs n, p.1 < p.2 := by
  intro p hp
  simp only [allPairs, List.mem_flatMap, List.mem_map, List.mem_filter] at hp
  obtain ⟨i, _, j, ⟨_, hj⟩, rfl⟩ := hp
  exact of_decide_eq_true hj

/-- A resting, in-bounds, on-plane, non-grabbed sphere is a fixed point
of the per-sphere phase. -/
theorem perSphereStep_fixed (sp : PSphere) (hf : sp.isDragging = false)
    (hv : sp.vel = ⟨0, 0, 0⟩) (hz : sp.pos.z = 0)
    (hx : |sp.pos.x| ≤ 30) (hy : -50 ≤ sp.pos.y ∧ sp.pos.y ≤ 10) :
    perSphereStep sp = sp := by
  obtain ⟨⟨px0, py0, pz0⟩, v, flag⟩ := sp
  dsimp only at hz hx hy hf
  subst hv hz hf
  unfold perSphereStep
  rw [if_neg Bool.false_ne_true]
  dsimp only [V3.add, V3.smul]
  simp only [add_zero]
  simp only [if_neg (not_lt.mpr hx), if_neg (not_lt.mpr hy.2),
    if_neg (not_lt.mpr hy.1)]
  norm_num

/-- C7, amended: a Physics Step fixes any scene in which no sphere is
grabbed, every velocity is zero, every sphere lies on the plane and
within the bounds, and no two spheres overlap.  (The claim as stated
omits the in-bounds and on-plane premises; without them the boundary
clamp or the planar constraint moves a sphere.) -/
theorem updatePhysics_rest_fixed {n : ℕ} (st : PState n)
    (hflag : ∀ i, (st.spheres i).isDragging = false)
    (hvel : ∀ i, (st.spheres i).vel = ⟨0, 0, 0⟩)
    (hz : ∀ i, (st.spheres i).pos.z = 0)
    (hx : ∀ i, |(st.spheres i).pos.x| ≤ 30)
    (hy : ∀ i, -50 ≤ (st.spheres i).pos.y ∧ (st.spheres i).pos.y ≤ 10)
    (hdist : ∀ i j, i ≠ j →
      (st.spheres i).pos.distanceTo ((st.spheres j).pos) ≥ 4) :
    ∀ i, (updatePhysics st).spheres i = st.spheres i := by
  intro i
  unfold updatePhysics
  by_cases hsc : (st.isDragging && st.selectedSphere.isSome) = true
  · rw [if_pos hsc]
  · rw [if_neg hsc]
    show collisionPass (fun j => perSphereStep (st.spheres j)) i
      = st.spheres i
    have hmap : (fun j => perSphereStep (st.spheres j)) = st.spheres :=
      funext fun j =>
        perSphereStep_fixed _ (hflag j) (hvel j) (hz j) (hx j) (hy j)
    rw [hmap]
    have hcoll : ∀ p ∈ allPairs n, collideStep st.spheres p = st.spheres := by
      intro p hp
      have hlt := allPairs_lt p hp
      unfold collideStep
      dsimp only
      rw [hflag p.1, hflag p.2]
      simp only [Bool.or_self]
      rw [if_neg Bool.false_ne_true,
        if_neg (not_lt.mpr (hdist p.1 p.2 (ne_of_lt hlt)))]
    unfold collisionPass
    rw [foldl_fix collideStep st.spheres (allPairs n) hcoll]

/-- An idle one-sphere scene at rest, on the plane and in bounds. -/
noncomputable def restState : PState 1 :=
  { spheres := fun _ => ⟨⟨1, -2, 0⟩, ⟨0, 0, 0⟩, false⟩
    isDragging := false
    selectedSphere := none }

/-- Witness for `updatePhysics_rest_fixed` on `restState`. -/
theorem updatePhysics_rest_fixed_witness :
    (updatePhysics restState).spheres 0 = restState.spheres 0 :=
  updatePhysics_rest_fixed restState (fun _ => rfl) (fun _ => rfl)
    (fun _ => rfl) (fun _ => by norm_num [restState])
    (fun _ => by norm_num [restState])
    (fun i j hij => absurd (Subsingleton.elim i j) hij) 0

/-! ### Pairwise collision resolution (C1) -/

/-- Two free spheres at distance 3 (sum of radii 4) with closing speed
`1/2` along the normal. -/
noncomputable def slowPair : Fin 2 → PSphere := fun i =>
  if i = 0 then ⟨⟨0, 0, 0⟩, ⟨1/2, 0, 0⟩, false⟩
  else ⟨⟨3, 0, 0⟩, ⟨0, 0, 0⟩, false⟩

/-- C1: at distance 3 with positive closing speed `1/2`, one pass of
the pairwise collision resolution moves each sphere by only
`speed · restitution · overlap/2 = 1/5` (the source scales the same
`Vector3` object by the impulse factor and then by the half-overlap), so
the spheres end at distance `17/5 < 4`: penetration is NOT fully
corrected, refuting the "each pushed apart by half the overlap, ending at
distance ≥ sum of radii" part of the claim.  Total momentum along the
normal (the `x` axis) IS conserved: the applied impulses are equal and
opposite. -/
theorem collide_separation_scaled_bug :
    (slowPair 0).pos.distanceTo ((slowPair 1).pos) = 3 ∧
    V3.dot (V3.sub (slowPair 0).vel ((slowPair 1).vel))
      ((V3.sub (slowPair 1).pos ((slowPair 0).pos)).normalize) = 1/2 ∧
    (collisionPass slowPair 0).pos.distanceTo
      ((collisionPass slowPair 1).pos) = 17/5 ∧
    (17 : ℝ)/5 < 4 ∧
    (collisionPass slowPair 0).vel.x + (collisionPass slowPair 1).vel.x =
      (slowPair 0).vel.x + (slowPair 1).vel.x := by
  have h9 : Real.sqrt 9 = 3 := by
    rw [show (9 : ℝ) = 3 ^ 2 by norm_num,
      Real.sqrt_sq (by norm_num : (0 : ℝ) ≤ 3)]
  have h289 : Real.sqrt (289/25) = 17/5 := by
    rw [show (289 : ℝ)/25 = (17/5) ^ 2 by norm_num,
      Real.sqrt_sq (by norm_num : (0 : ℝ) ≤ 17/5)]
  refine ⟨?_, ?_, ?_, by norm_num, ?_⟩
  · norm_num [slowPair, V3.sub, V3.length, V3.distanceTo, h9]
  · norm_num [slowPair, V3.sub, V3.dot, V3.length, V3.normalize, V3.smul, h9]
  · unfold collisionPass collideStep
    norm_num [allPairs, List.finRange, slowPair, V3.add, V3.sub, V3.smul,
      V3.dot, V3.length, V3.distanceTo, V3.normalize, restitution, h9,
      h289, Function.update]
  · unfold collisionPass collideStep
    norm_num [allPairs, List.finRange, slowPair, V3.add, V3.sub, V3.smul,
      V3.dot, V3.length, V3.distanceTo, V3.normalize, restitution, h9,
      h289, Function.update]

end Pushups
